/-
Verification of the data logic of the interest-rates dashboard (src/app.py).

The app's data pipeline is shallowly embedded: pandas data frames become
`List Record`, boolean-mask filtering becomes `List.filter`, groupby /
pivot operations become explicit key-dedup + per-key aggregation, and
pandas NaN results (mean/std of an empty or singleton column, empty pivot
cells) become `Option.none`.  Numeric values are modelled as rationals
(`ℚ`), which contain every Python float value exactly; the risk classifier
is stated generically over a linear ordered field so the spec's claim over
the real line can be proved literally.
-/
import Mathlib

namespace InterestRates

/-- Embedding of `classify_risk` from src/app.py (lines 16-19):
`if value < 10: "Low" elif value < 20: "Medium" else: "High"`.
Generic over a linear ordered field so it can be read at `ℚ` (the
executable model of the float column) and at `ℝ` (the spec's domain). -/
def classify_risk {α : Type} [LinearOrderedField α] (value : α) : String :=
  if value < 10 then "Low"
  else if value < 20 then "Medium"
  else "High"

/-- Boolean test that `needle` begins `hay` (character lists). -/
def charsStartWith : List Char → List Char → Bool
  | [], _ => true
  | _ :: _, [] => false
  | a :: as, b :: bs => a == b && charsStartWith as bs

/-- Boolean substring test on character lists: `needle` occurs
contiguously inside `hay`. -/
def charsContain (needle : List Char) : List Char → Bool
  | [] => charsStartWith needle []
  | b :: bs => charsStartWith needle (b :: bs) || charsContain needle bs

/-- Upper-case every character (the character-level content of
`String.toUpper`). -/
def upperChars (l : List Char) : List Char :=
  l.map Char.toUpper

/-- Case-insensitive substring test: `s.str.contains(pat, case=False)`
for a literal (regex-free) pattern, realised by upper-casing both sides. -/
def containsCI (s pat : String) : Bool :=
  charsContain (upperChars pat.toList) (upperChars s.toList)

/-- The Sector Type derivation from src/app.py (line 25):
`np.where(df['Description'].str.contains("TREASURY|BILL", case=False),
"Public", "Private")`.  The pattern `TREASURY|BILL` is a regex
alternation of two literals, i.e. a disjunction of two substring tests. -/
def sector_type (description : String) : String :=
  if containsCI description "TREASURY" || containsCI description "BILL"
  then "Public" else "Private"

/-- One row of Interest_Rates.csv as read by `pd.read_csv` (line 13):
columns Country, Year, Description, Value. -/
structure RawRecord where
  country : String
  year : Int
  description : String
  value : ℚ
deriving DecidableEq, Repr

/-- One row of the enhanced frame returned by `load_data` (lines 12-27):
the four CSV columns plus the derived `Risk Level` and `Sector Type`. -/
structure Record where
  country : String
  year : Int
  description : String
  value : ℚ
  riskLevel : String
  sectorType : String
deriving DecidableEq, Repr

/-- Embedding of `load_data` from src/app.py (lines 12-27): derives
`df['Risk Level'] = df['Value'].apply(classify_risk)` and, since the CSV
has no `Sector Type` column, the `np.where` sector derivation. -/
def load_data (raw : List RawRecord) : List Record :=
  raw.map fun r =>
    { country := r.country
      year := r.year
      description := r.description
      value := r.value
      riskLevel := classify_risk r.value
      sectorType := sector_type r.description }

/-- Embedding of `df['Description'].unique()` (line 53): the distinct Description
values in first-appearance order. -/
def rate_types (df : List Record) : List String :=
  (df.map (·.description)).dedup

/-- The filter of src/app.py (lines 74-79):
`df[(df['Description'].isin(selected_rates)) &
(df['Risk Level'].isin(risk_levels)) &
(df['Year'] >= year_range[0]) & (df['Year'] <= year_range[1])]`. -/
def filtered_df (df : List Record) (selected_rates risk_levels : List String)
    (yearLo yearHi : Int) : List Record :=
  df.filter fun r =>
    selected_rates.contains r.description &&
    risk_levels.contains r.riskLevel &&
    decide (yearLo ≤ r.year) && decide (r.year ≤ yearHi)

/-- Embedding of `df['Year'].min()` (line 68): minimum of an integer column, `none`
on an empty column (pandas NaN). -/
def colMin (l : List Int) : Option Int :=
  match l with
  | [] => none
  | h :: t => some (t.foldl min h)

/-- Embedding of `df['Year'].max()` (line 69): maximum of an integer column, `none`
on an empty column (pandas NaN). -/
def colMax (l : List Int) : Option Int :=
  match l with
  | [] => none
  | h :: t => some (t.foldl max h)

/-- A small concrete loaded dataset used by the witnesses. -/
def exRaw : List RawRecord :=
  [⟨"Albania", 2000, "TREASURY BILL RATE", 5⟩,
   ⟨"Brazil", 2001, "ADVANCE RATE (END OF PERIOD)", 25⟩,
   ⟨"Chile", 2001, "TREASURY BILL RATE", 15⟩]

/-- Modelled from the spec: the variant under src/ (app.py lines 53-58)
has only a plain multiselect and no select-all toggle; the toggle of spec
§4.2 lives in the repository's other app variants, which are not under
src/.  Per the spec, toggle-true overrides any explicit list with every
distinct Description of the dataset. -/
def effective_rates (df : List Record) (toggle : Bool)
    (explicit : List String) : List String :=
  if toggle then rate_types df else explicit

/-- Modelled from the spec: the filter as invoked with the select-all
toggle state, feeding `effective_rates` into the rate-type slot of the
src/app.py filter. -/
def filter_with_toggle (df : List Record) (toggle : Bool)
    (explicit risk_levels : List String) (yearLo yearHi : Int) :
    List Record :=
  filtered_df df (effective_rates df toggle explicit) risk_levels
    yearLo yearHi

/-- Stable insertion of `a` into `l` before the first element it is
`le`-below. -/
def insertLe {α : Type} (le : α → α → Bool) (a : α) : List α → List α
  | [] => [a]
  | b :: t => if le a b then a :: b :: t else b :: insertLe le a t

/-- Insertion sort; pandas `groupby`/`unstack`/`pivot_table` emit their
group keys sorted ascending. -/
def sortByKey {α : Type} (le : α → α → Bool) (l : List α) : List α :=
  l.foldr (insertLe le) []

/-- Lexicographic strict order on character lists by code point (the
order Python/pandas use on ASCII strings). -/
def charsLt : List Char → List Char → Bool
  | _, [] => false
  | [], _ :: _ => true
  | a :: as, b :: bs =>
    decide (a.toNat < b.toNat) || (a == b && charsLt as bs)

def strLe (a b : String) : Bool := !(charsLt b.toList a.toList)

def intLe (a b : Int) : Bool := decide (a ≤ b)

/-- Embedding of `Series.mean()`: NaN (`none`) on an empty column. -/
def colMean (xs : List ℚ) : Option ℚ :=
  if xs.isEmpty then none else some (xs.sum / (xs.length : ℚ))

/-- Embedding of `Series.median()`: sort, take the middle element (odd length) or the
mean of the two middle elements (even length); NaN on empty. -/
def colMedian (xs : List ℚ) : Option ℚ :=
  if xs.isEmpty then none
  else
    let s := sortByKey (fun a b => decide (a ≤ b)) xs
    let n := xs.length
    if n % 2 = 1 then some (s.getD (n / 2) 0)
    else some ((s.getD (n / 2 - 1) 0 + s.getD (n / 2) 0) / 2)

/-- The square of `Series.std()` with pandas' default `ddof = 1`:
`Σ (x - mean)² / (n - 1)`, NaN (`none`) whenever `n ≤ 1` (the 0/0 of the
`ddof` formula).  The standard deviation itself is the square root of
this, irrational in general; it is NaN exactly when this is `none`, and
the n−1 denominator convention is a property of this square. -/
def colVar (xs : List ℚ) : Option ℚ :=
  if xs.length < 2 then none
  else some (((xs.map fun x => (x - xs.sum / (xs.length : ℚ)) ^ 2).sum) /
    ((xs.length : ℚ) - 1))

/-- Embedding of `Series.min()`: NaN on empty. -/
def colMinQ (xs : List ℚ) : Option ℚ :=
  match xs with
  | [] => none
  | h :: t => some (t.foldl min h)

/-- Embedding of `Series.max()`: NaN on empty. -/
def colMaxQ (xs : List ℚ) : Option ℚ :=
  match xs with
  | [] => none
  | h :: t => some (t.foldl max h)

/-- One row of `.agg(['mean', 'median', 'std', 'min', 'max'])`; the std
column is tracked by its square (`colVar`). -/
structure Stats where
  mean : Option ℚ
  median : Option ℚ
  stdSq : Option ℚ
  min : Option ℚ
  max : Option ℚ
deriving DecidableEq, Repr

/-- The aggregate row of one group's Value column. -/
def aggStats (xs : List ℚ) : Stats :=
  ⟨colMean xs, colMedian xs, colVar xs, colMinQ xs, colMaxQ xs⟩

/-- Embedding of `filtered_df.groupby(key)['Value'].agg([...])` (lines 268-276): the
distinct key values, sorted ascending (pandas groupby `sort=True`), each
paired with the aggregate row of the group's Value column. -/
def groupAgg {α : Type} [DecidableEq α] (le : α → α → Bool)
    (key : Record → α) (fdf : List Record) : List (α × Stats) :=
  (sortByKey le ((fdf.map key).dedup)).map fun k =>
    (k, aggStats ((fdf.filter fun r => decide (key r = k)).map (·.value)))

/-- Embedding of `filtered_df.groupby('Risk Level')['Value'].agg([...])` (line 268). -/
def risk_stats (fdf : List Record) : List (String × Stats) :=
  groupAgg strLe (·.riskLevel) fdf

/-- Embedding of `filtered_df.groupby('Description')['Value'].agg([...])` (line 272). -/
def rate_stats (fdf : List Record) : List (String × Stats) :=
  groupAgg strLe (·.description) fdf

/-- Embedding of `filtered_df.groupby('Year')['Value'].agg([...])` (line 276). -/
def yearly_stats (fdf : List Record) : List (Int × Stats) :=
  groupAgg intLe (·.year) fdf

/-- Embedding of `Series.value_counts()` keys and counts (line 155); pandas orders by
descending count, an ordering none of the claims depend on, so keys are
kept in first-appearance order here. -/
def value_counts (l : List String) : List (String × Nat) :=
  l.dedup.map fun k => (k, l.count k)

/-- The observed Year row keys of the two Year × Risk Level matrices,
ascending. -/
def pivotRows (fdf : List Record) : List Int :=
  sortByKey intLe ((fdf.map (·.year)).dedup)

/-- The observed Risk Level column keys of the two Year × Risk Level
matrices, ascending. -/
def pivotCols (fdf : List Record) : List String :=
  sortByKey strLe ((fdf.map (·.riskLevel)).dedup)

/-- The records of one (Year, Risk Level) cell. -/
def cellRecords (fdf : List Record) (y : Int) (k : String) : List Record :=
  fdf.filter fun r => decide (r.year = y) && decide (r.riskLevel = k)

/-- Embedding of `groupby(['Year','Risk Level']).size()` seen through `unstack()`:
the cell count where the combination occurs, `none` (NaN) where it does
not. -/
def sizeCell (fdf : List Record) (y : Int) (k : String) : Option Nat :=
  if (cellRecords fdf y k).isEmpty then none
  else some (cellRecords fdf y k).length

/-- Embedding of `filtered_df.groupby(['Year', 'Risk Level']).size().unstack().fillna(0)`
(line 173): rows are the observed Years, columns the observed Risk
Levels, and each cell is the count of that combination, with `fillna(0)`
turning the NaN of an absent combination into 0. -/
def yearly_risk (fdf : List Record) : List (Int × List (String × Nat)) :=
  (pivotRows fdf).map fun y =>
    (y, (pivotCols fdf).map fun k => (k, (sizeCell fdf y k).getD 0))

/-- Embedding of `filtered_df.pivot_table(index='Year', columns='Risk Level',
values='Value', aggfunc=np.mean)` (lines 241-246): same rectangle of
observed keys, each cell the mean Value of the combination; absent
combinations stay NaN (`none`) — this pivot has no `fill_value`. -/
def heatmap_data (fdf : List Record) :
    List (Int × List (String × Option ℚ)) :=
  (pivotRows fdf).map fun y =>
    (y, (pivotCols fdf).map fun k =>
      (k, colMean ((cellRecords fdf y k).map (·.value))))

/-- Look a cell up in a row-major matrix keyed by Year then Risk Level. -/
def cellOf {α : Type} (m : List (Int × List (String × α))) (y : Int)
    (k : String) : Option α :=
  (m.lookup y).bind fun row => row.lookup k

/-- The metrics strip (lines 118-131): `none` renders the "No data
matches your filters" warning; otherwise mean / max / min / std (squared)
of the filtered Value column. -/
def metricsView (fdf : List Record) :
    Option (Option ℚ × Option ℚ × Option ℚ × Option ℚ) :=
  if fdf.isEmpty then none
  else some (colMean (fdf.map (·.value)), colMaxQ (fdf.map (·.value)),
    colMinQ (fdf.map (·.value)), colVar (fdf.map (·.value)))

/-- The scatter tab (lines 135-150): the plotted
(Year, Value, Risk Level, Description) tuples, or the no-data warning. -/
def scatterView (fdf : List Record) :
    Option (List (Int × ℚ × String × String)) :=
  if fdf.isEmpty then none
  else some (fdf.map fun r => (r.year, r.value, r.riskLevel, r.description))

/-- The pie tab (lines 152-168): the Risk Level frequency table, or the
no-data warning. -/
def pieView (fdf : List Record) : Option (List (String × Nat)) :=
  if fdf.isEmpty then none
  else some (value_counts (fdf.map (·.riskLevel)))

/-- The area tab (lines 170-183): the zero-filled Year × Risk Level
count matrix, or the no-data warning. -/
def areaView (fdf : List Record) :
    Option (List (Int × List (String × Nat))) :=
  if fdf.isEmpty then none else some (yearly_risk fdf)

/-- The histogram tab (lines 185-236): its rate-type selectbox options
(the inner chart depends on widget state), or the no-data warning. -/
def histView (fdf : List Record) : Option (List String) :=
  if fdf.isEmpty then none else some ((fdf.map (·.description)).dedup)

/-- The heatmap tab (lines 238-258): the Year × Risk Level mean matrix,
or the no-data warning. -/
def heatmapView (fdf : List Record) :
    Option (List (Int × List (String × Option ℚ))) :=
  if fdf.isEmpty then none else some (heatmap_data fdf)

/-- The Summary page (lines 260-279): the overall Value statistics and
the three groupby tables, or the no-data warning. -/
def summaryView (fdf : List Record) :
    Option (Stats × List (String × Stats) × List (String × Stats) ×
      List (Int × Stats)) :=
  if fdf.isEmpty then none
  else some (aggStats (fdf.map (·.value)), risk_stats fdf, rate_stats fdf,
    yearly_stats fdf)

/-- The only tabular rendering of records in src/app.py (line 113,
`st.dataframe(df)` on the About page): the frame's rows are displayed in
their stored order; no `sort_values` appears anywhere in the file. -/
def renderTable (df : List Record) : List Record := df

/-- One ordered-pair step of the Year-then-Description order. -/
def pairLeYearDesc (a b : Record) : Bool :=
  decide (a.year < b.year) ||
    (decide (a.year = b.year) && decide (a.description ≤ b.description))

/-- Whether a record sequence is sorted by Year then Description. -/
def isSortedByYearDesc : List Record → Bool
  | [] => true
  | [_] => true
  | a :: b :: t => pairLeYearDesc a b && isSortedByYearDesc (b :: t)

/-- A loaded dataset whose stored order is not sorted by Year. -/
def exRawUnsorted : List RawRecord :=
  [⟨"Albania", 2005, "TREASURY BILL RATE", 5⟩,
   ⟨"Brazil", 2000, "TREASURY BILL RATE", 5⟩]

/-- A loaded dataset with a two-record Low group and a singleton High
group, used by the statistics witnesses. -/
def exRaw2 : List RawRecord :=
  [⟨"Albania", 2000, "TREASURY BILL RATE", 1⟩,
   ⟨"Brazil", 2000, "TREASURY BILL RATE", 3⟩,
   ⟨"Chile", 2001, "ADVANCE RATE (END OF PERIOD)", 25⟩]

/-- The test `charsStartWith` decides Mathlib's `List.IsPrefix`. -/
theorem charsStartWith_iff (n h : List Char) :
    charsStartWith n h = true ↔ n <+: h := by
  induction n generalizing h with
  | nil => simp [charsStartWith, List.nil_prefix]
  | cons a as ih =>
    cases h with
    | nil =>
      simp only [charsStartWith, Bool.false_eq_true, false_iff]
      intro hp
      exact absurd (List.eq_nil_of_prefix_nil hp) (by simp)
    | cons b bs =>
      simp only [charsStartWith, Bool.and_eq_true, beq_iff_eq, ih,
        List.cons_prefix_cons]

/-- The test `charsContain` decides Mathlib's `List.IsInfix`. -/
theorem charsContain_iff (n h : List Char) :
    charsContain n h = true ↔ n <:+: h := by
  induction h with
  | nil =>
    simp only [charsContain, charsStartWith_iff]
    constructor
    · intro hp
      exact hp.isInfix
    · intro hi
      exact (List.eq_nil_of_infix_nil hi) ▸ List.nil_prefix
  | cons b bs ih =>
    simp only [charsContain, Bool.or_eq_true, charsStartWith_iff, ih]
    constructor
    · rintro (hp | hi)
      · exact hp.isInfix
      · exact hi.trans (List.suffix_cons b bs).isInfix
    · intro hi
      rcases hi with ⟨s, t, hst⟩
      cases s with
      | nil => exact Or.inl ⟨t, by simpa using hst⟩
      | cons c cs =>
        right
        refine ⟨cs, t, ?_⟩
        have hst' := hst
        simp only [List.cons_append, List.cons.injEq] at hst'
        exact hst'.2

/-- C1: for every real value `v`, `classify_risk v` is exactly one of
Low / Medium / High, with Low ↔ v < 10, Medium ↔ 10 ≤ v < 20,
High ↔ 20 ≤ v; in particular v = 10 is Medium and v = 20 is High, and the
three cases are mutually exclusive and exhaustive. -/
theorem classify_risk_trichotomy (v : ℝ) :
    (classify_risk v = "Low" ∨ classify_risk v = "Medium" ∨
      classify_risk v = "High")
    ∧ (classify_risk v = "Low" ↔ v < 10)
    ∧ (classify_risk v = "Medium" ↔ 10 ≤ v ∧ v < 20)
    ∧ (classify_risk v = "High" ↔ 20 ≤ v) := by
  unfold classify_risk
  split_ifs with h1 h2
  · refine ⟨Or.inl rfl, ⟨fun _ => h1, fun _ => rfl⟩, ?_, ?_⟩
    · exact ⟨fun hs => absurd hs (by decide), fun hc => absurd h1 (by linarith [hc.1])⟩
    · exact ⟨fun hs => absurd hs (by decide), fun hc => absurd h1 (by linarith)⟩
  · have h1' : 10 ≤ v := not_lt.mp h1
    refine ⟨Or.inr (Or.inl rfl), ?_, ⟨fun _ => ⟨h1', h2⟩, fun _ => rfl⟩, ?_⟩
    · exact ⟨fun hs => absurd hs (by decide), fun hc => absurd hc (by linarith)⟩
    · exact ⟨fun hs => absurd hs (by decide), fun hc => absurd h2 (by linarith)⟩
  · have h2' : 20 ≤ v := not_lt.mp h2
    refine ⟨Or.inr (Or.inr rfl), ?_, ?_, ⟨fun _ => h2', fun _ => rfl⟩⟩
    · exact ⟨fun hs => absurd hs (by decide), fun hc => absurd hc (by linarith)⟩
    · exact ⟨fun hs => absurd hs (by decide), fun hc => absurd h2' (by linarith [hc.2])⟩

/-- C8: a record's derived Sector Type is "Public" iff its Description
case-insensitively contains the substring "TREASURY" or the substring
"BILL" (stated via `List.IsInfix` on the upper-cased text), and "Private"
otherwise; the derivation depends on the Description alone, so every
loaded record's sectorType is determined by its description. -/
theorem sector_type_public_iff (d : String) :
    (sector_type d = "Public" ↔
      ("TREASURY".toList <:+: upperChars d.toList ∨
        "BILL".toList <:+: upperChars d.toList))
    ∧ (sector_type d ≠ "Public" → sector_type d = "Private")
    ∧ ∀ raw : List RawRecord, ∀ r ∈ load_data raw,
        r.sectorType = sector_type r.description := by
  have hTU : upperChars "TREASURY".toList = "TREASURY".toList := by decide
  have hBU : upperChars "BILL".toList = "BILL".toList := by decide
  refine ⟨?_, ?_, ?_⟩
  · unfold sector_type
    split_ifs with h
    · simp only [true_iff]
      rcases Bool.or_eq_true _ _ |>.mp h with hT | hB
      · exact Or.inl (hTU ▸ (charsContain_iff _ _).mp hT)
      · exact Or.inr (hBU ▸ (charsContain_iff _ _).mp hB)
    · constructor
      · intro hs
        exact absurd hs (by decide)
      · intro hor
        exfalso
        apply h
        rcases hor with hT | hB
        · exact Bool.or_eq_true _ _ |>.mpr
            (Or.inl ((charsContain_iff _ _).mpr (hTU.symm ▸ hT)))
        · exact Bool.or_eq_true _ _ |>.mpr
            (Or.inr ((charsContain_iff _ _).mpr (hBU.symm ▸ hB)))
  · unfold sector_type
    split_ifs <;> simp
  · intro raw r hr
    simp only [load_data, List.mem_map] at hr
    obtain ⟨x, _, rfl⟩ := hr
    rfl

/-- Witness: the Sector Type characterisation evaluated on the loaded
`exRaw`'s first record, whose Description contains "TREASURY". -/
theorem sector_type_public_iff_witness :
    ({ country := "Albania", year := 2000,
       description := "TREASURY BILL RATE", value := 5,
       riskLevel := "Low", sectorType := "Public" } : Record).sectorType =
      sector_type "TREASURY BILL RATE" ∧
    sector_type "TREASURY BILL RATE" = "Public" := by
  have h := sector_type_public_iff "TREASURY BILL RATE"
  refine ⟨h.2.2 exRaw _ (by decide), ?_⟩
  exact h.1.mpr (Or.inl (by decide))

theorem foldl_min_le (l : List Int) (a : Int) :
    (∀ x ∈ l, l.foldl min a ≤ x) ∧ l.foldl min a ≤ a := by
  induction l generalizing a with
  | nil => simp
  | cons b t ih =>
    have h := ih (min a b)
    refine ⟨?_, le_trans h.2 (min_le_left a b)⟩
    intro x hx
    rcases List.mem_cons.mp hx with rfl | hx
    · exact le_trans h.2 (min_le_right a x)
    · exact h.1 x hx

theorem le_foldl_max (l : List Int) (a : Int) :
    (∀ x ∈ l, x ≤ l.foldl max a) ∧ a ≤ l.foldl max a := by
  induction l generalizing a with
  | nil => simp
  | cons b t ih =>
    have h := ih (max a b)
    refine ⟨?_, le_trans (le_max_left a b) h.2⟩
    intro x hx
    rcases List.mem_cons.mp hx with rfl | hx
    · exact le_trans (le_max_right a x) h.2
    · exact h.1 x hx

theorem colMin_le (l : List Int) (m : Int) (h : colMin l = some m) :
    ∀ x ∈ l, m ≤ x := by
  cases l with
  | nil => simp [colMin] at h
  | cons b t =>
    simp only [colMin, Option.some.injEq] at h
    intro x hx
    rcases List.mem_cons.mp hx with rfl | hx
    · exact h ▸ (foldl_min_le t x).2
    · exact h ▸ (foldl_min_le t b).1 x hx

theorem le_colMax (l : List Int) (m : Int) (h : colMax l = some m) :
    ∀ x ∈ l, x ≤ m := by
  cases l with
  | nil => simp [colMax] at h
  | cons b t =>
    simp only [colMax, Option.some.injEq] at h
    intro x hx
    rcases List.mem_cons.mp hx with rfl | hx
    · exact h ▸ (le_foldl_max t x).2
    · exact h ▸ (le_foldl_max t b).1 x hx

/-- Every record produced by `load_data` carries the risk level derived
from its own value. -/
theorem riskLevel_load_data (raw : List RawRecord) (r : Record)
    (hr : r ∈ load_data raw) : r.riskLevel = classify_risk r.value := by
  simp only [load_data, List.mem_map] at hr
  obtain ⟨x, _, rfl⟩ := hr
  rfl

/-- Function `classify_risk` always lands in the three risk labels. -/
theorem classify_risk_mem (v : ℚ) :
    classify_risk v ∈ (["Low", "Medium", "High"] : List String) := by
  unfold classify_risk
  split_ifs <;> simp

/-- C2: a record is in the output of the filter (lines 74-79) iff it is
in the input frame, its Description is among the selected rate types, its
Risk Level is among the selected risk levels, and its Year lies in the
inclusive range `[yearLo, yearHi]`. -/
theorem mem_filtered_df_iff (df : List Record)
    (selected_rates risk_levels : List String) (yearLo yearHi : Int)
    (r : Record) :
    r ∈ filtered_df df selected_rates risk_levels yearLo yearHi ↔
      r ∈ df ∧ r.description ∈ selected_rates ∧
        r.riskLevel ∈ risk_levels ∧ yearLo ≤ r.year ∧ r.year ≤ yearHi := by
  simp [filtered_df, List.mem_filter, and_assoc]

/-- C10: filtering is pure row selection.  The output is a sublist of the
input frame (rows kept in order, never created or modified — each output
row is one of the input rows with all its fields intact), and no row's
multiplicity ever increases (nothing is duplicated).  The input frame
itself is untouched: the embedding of the pandas boolean mask is a pure
function of `df`. -/
theorem filtered_df_sublist (df : List Record)
    (selected_rates risk_levels : List String) (yearLo yearHi : Int) :
    (filtered_df df selected_rates risk_levels yearLo yearHi).Sublist df ∧
      ∀ r : Record,
        (filtered_df df selected_rates risk_levels yearLo yearHi).count r ≤
          df.count r := by
  refine ⟨List.filter_sublist df, fun r => ?_⟩
  exact (List.filter_sublist df).count_le r

/-- C3: filtering the loaded frame with every rate type present in it,
all three risk levels, and the year range equal to the frame's own
min/max Year returns the frame itself. -/
theorem filtered_df_full_selection_identity (raw : List RawRecord)
    (lo hi : Int)
    (hlo : colMin ((load_data raw).map (·.year)) = some lo)
    (hhi : colMax ((load_data raw).map (·.year)) = some hi) :
    filtered_df (load_data raw) (rate_types (load_data raw))
      ["Low", "Medium", "High"] lo hi = load_data raw := by
  apply List.filter_eq_self.mpr
  intro r hr
  simp only [Bool.and_eq_true, decide_eq_true_eq, List.contains,
    List.elem_eq_mem]
  refine ⟨⟨⟨?_, ?_⟩, ?_⟩, ?_⟩
  · simp only [decide_eq_true_eq, rate_types, List.mem_dedup]
    exact List.mem_map_of_mem _ hr
  · simp only [decide_eq_true_eq, riskLevel_load_data raw r hr]
    exact classify_risk_mem r.value
  · exact colMin_le _ lo hlo r.year (List.mem_map_of_mem _ hr)
  · exact le_colMax _ hi hhi r.year (List.mem_map_of_mem _ hr)

/-- Witness: the full-selection identity evaluated on `exRaw`. -/
theorem filtered_df_full_selection_identity_witness :
    colMin ((load_data exRaw).map (·.year)) = some 2000 ∧
    colMax ((load_data exRaw).map (·.year)) = some 2001 ∧
    filtered_df (load_data exRaw) (rate_types (load_data exRaw))
      ["Low", "Medium", "High"] 2000 2001 = load_data exRaw := by
  refine ⟨by decide, by decide, ?_⟩
  exact filtered_df_full_selection_identity exRaw 2000 2001
    (by decide) (by decide)

/-- C7: with the select-all toggle engaged the explicit rate-type list is
irrelevant — filtering with `[x]` (or any list) equals filtering with
`[]` — and every distinct Description present in the dataset is
included in the effective rate types. -/
theorem select_all_toggle_overrides (df : List Record) (x : String)
    (explicit risk_levels : List String) (yearLo yearHi : Int) :
    filter_with_toggle df true [x] risk_levels yearLo yearHi =
        filter_with_toggle df true [] risk_levels yearLo yearHi ∧
      filter_with_toggle df true explicit risk_levels yearLo yearHi =
        filter_with_toggle df true [] risk_levels yearLo yearHi ∧
      ∀ r ∈ df, r.description ∈ effective_rates df true explicit := by
  refine ⟨rfl, rfl, fun r hr => ?_⟩
  simp only [effective_rates, if_pos, rate_types, List.mem_dedup]
  exact List.mem_map_of_mem _ hr

/-- Witness: the toggle-override theorem evaluated on `exRaw` and its
first loaded record. -/
theorem select_all_toggle_overrides_witness :
    filter_with_toggle (load_data exRaw) true ["TREASURY BILL RATE"]
        ["Low", "Medium", "High"] 2000 2001 =
      filter_with_toggle (load_data exRaw) true []
        ["Low", "Medium", "High"] 2000 2001 ∧
    ({ country := "Albania", year := 2000,
       description := "TREASURY BILL RATE", value := 5,
       riskLevel := "Low", sectorType := "Public" } : Record).description ∈
      effective_rates (load_data exRaw) true ["TREASURY BILL RATE"] := by
  have h := select_all_toggle_overrides (load_data exRaw)
    "TREASURY BILL RATE" ["TREASURY BILL RATE"] ["Low", "Medium", "High"]
    2000 2001
  exact ⟨h.1, h.2.2 _ (by decide)⟩

/-- C4: on an empty filtered set every downstream view — metrics strip,
scatter, pie, area, histogram, heatmap, and the summary statistics page —
returns the neutral no-data indicator (`none`); each is guarded by
`filtered_df.empty`, so no aggregate is computed over the empty set and
nothing raises. -/
theorem empty_filter_all_views_no_data :
    metricsView [] = none ∧ scatterView [] = none ∧ pieView [] = none ∧
      areaView [] = none ∧ histView [] = none ∧ heatmapView [] = none ∧
      summaryView [] = none :=
  ⟨rfl, rfl, rfl, rfl, rfl, rfl, rfl⟩

/-- C9 counterexample: rendering this loaded dataset in tabular form
yields rows in years order [2005, 2000] — not sorted by Year (and hence
not by Year then Description). -/
theorem render_table_not_sorted_counterexample :
    (renderTable (load_data exRawUnsorted)).map (·.year) = [2005, 2000] ∧
      isSortedByYearDesc (renderTable (load_data exRawUnsorted)) = false :=
  ⟨by decide, by decide⟩

/-- C9 amended: the tabular rendering displays the frame exactly as
stored — no sorting by Year or Description (or anything else) is applied
before display. -/
theorem render_table_preserves_order (df : List Record) :
    renderTable df = df :=
  rfl

theorem mem_insertLe {α : Type} (le : α → α → Bool) (a b : α)
    (l : List α) : a ∈ insertLe le b l ↔ a = b ∨ a ∈ l := by
  induction l with
  | nil => simp [insertLe]
  | cons c t ih =>
    simp only [insertLe]
    split_ifs with h
    · simp [List.mem_cons]
    · simp only [List.mem_cons, ih]
      tauto

theorem mem_sortByKey {α : Type} (le : α → α → Bool) (l : List α)
    (a : α) : a ∈ sortByKey le l ↔ a ∈ l := by
  induction l with
  | nil => simp [sortByKey]
  | cons b t ih =>
    show a ∈ insertLe le b (sortByKey le t) ↔ _
    rw [mem_insertLe, ih, List.mem_cons]

theorem colMean_single (v : ℚ) : colMean [v] = some v := by
  simp [colMean]

theorem colVar_single (v : ℚ) : colVar [v] = none := by
  simp [colVar]

/-- Expanding a sum of squared deviations about an arbitrary centre. -/
theorem sum_sq_dev (l : List ℚ) (m : ℚ) :
    (l.map fun x => (x - m) ^ 2).sum =
      (l.map fun x => x ^ 2).sum - 2 * m * l.sum +
        (l.length : ℚ) * m ^ 2 := by
  induction l with
  | nil => simp
  | cons a t ih =>
    simp only [List.map_cons, List.sum_cons, List.length_cons, ih]
    push_cast
    ring

/-- C5: for every group row of the by-risk-level statistics table, the
group is non-empty; a singleton group has a defined mean equal to its one
value and a NaN (squared) standard deviation; and whenever the (squared)
standard deviation is defined the group has at least two records and the
value satisfies the sample-convention identity
`var · (n − 1) = Σ x² − n · mean²` — the n−1 (not n) denominator. -/
theorem risk_stats_sample_convention (fdf : List Record) (k : String)
    (st : Stats) (xs : List ℚ)
    (hmem : (k, st) ∈ risk_stats fdf)
    (hxs : xs = (fdf.filter fun r => decide (r.riskLevel = k)).map
      (·.value)) :
    xs ≠ [] ∧
      (∀ v : ℚ, xs = [v] → st.mean = some v ∧ st.stdSq = none) ∧
      ∀ v : ℚ, st.stdSq = some v →
        2 ≤ xs.length ∧
          v * ((xs.length : ℚ) - 1) =
            (xs.map fun x => x ^ 2).sum -
              (xs.length : ℚ) * (xs.sum / (xs.length : ℚ)) ^ 2 := by
  simp only [risk_stats, groupAgg, List.mem_map] at hmem
  obtain ⟨k', hk', heq⟩ := hmem
  rw [Prod.mk.injEq] at heq
  obtain ⟨rfl, hst⟩ := heq
  subst hst
  subst hxs
  rw [mem_sortByKey, List.mem_dedup, List.mem_map] at hk'
  obtain ⟨r, hr, hrk⟩ := hk'
  constructor
  · intro hnil
    have hrmem : r ∈ fdf.filter fun x => decide (x.riskLevel = k') :=
      List.mem_filter.mpr ⟨hr, by simp [hrk]⟩
    rw [List.map_eq_nil_iff] at hnil
    rw [hnil] at hrmem
    exact absurd hrmem (List.not_mem_nil r)
  constructor
  · intro v hv
    rw [hv]
    exact ⟨colMean_single v, colVar_single v⟩
  · intro v hv
    set ys := (fdf.filter fun x => decide (x.riskLevel = k')).map (·.value)
      with hys
    simp only [aggStats] at hv
    rw [colVar] at hv
    split_ifs at hv with hlen
    · push_neg at hlen
      refine ⟨hlen, ?_⟩
      rw [Option.some.injEq] at hv
      have hn0 : (ys.length : ℚ) ≠ 0 := by
        have : (2 : ℚ) ≤ (ys.length : ℚ) := by exact_mod_cast hlen
        linarith
      have hn1 : (ys.length : ℚ) - 1 ≠ 0 := by
        have : (2 : ℚ) ≤ (ys.length : ℚ) := by exact_mod_cast hlen
        linarith
      rw [← hv, div_mul_cancel₀ _ hn1, sum_sq_dev]
      have hsum : (ys.length : ℚ) * (ys.sum / (ys.length : ℚ)) = ys.sum :=
        mul_div_cancel₀ ys.sum hn0
      field_simp
      ring

/-- Witness: on `exRaw2`'s Low group (values 1 and 3) the squared std is
2, the group has two records, and the sample-convention identity
evaluates to `2 · (2 − 1) = (1 + 9) − 2 · 2²`. -/
theorem risk_stats_sample_convention_witness :
    (aggStats [(1 : ℚ), 3]).stdSq = some 2 ∧
      2 ≤ ([(1 : ℚ), 3]).length ∧
      (2 : ℚ) * ((([(1 : ℚ), 3]).length : ℚ) - 1) =
        (([(1 : ℚ), 3]).map fun x => x ^ 2).sum -
          (([(1 : ℚ), 3]).length : ℚ) *
            (([(1 : ℚ), 3]).sum / (([(1 : ℚ), 3]).length : ℚ)) ^ 2 := by
  have hrs : risk_stats (load_data exRaw2) =
      [("High", aggStats [25]), ("Low", aggStats [1, 3])] := rfl
  have hmem : ("Low", aggStats [(1 : ℚ), 3]) ∈
      risk_stats (load_data exRaw2) := by
    rw [hrs]
    exact List.mem_cons_of_mem _ (List.mem_cons_self _ _)
  have hstd : (aggStats [(1 : ℚ), 3]).stdSq = some 2 := by
    norm_num [aggStats, colVar]
  have h := risk_stats_sample_convention (load_data exRaw2) "Low"
    (aggStats [1, 3]) [1, 3] hmem rfl
  have h3 := h.2.2 2 hstd
  exact ⟨hstd, h3.1, h3.2⟩

theorem lookup_map_self {α β : Type} [BEq α] [LawfulBEq α] (l : List α)
    (f : α → β) (a : α) (ha : a ∈ l) :
    List.lookup a (l.map fun x => (x, f x)) = some (f a) := by
  induction l with
  | nil => exact absurd ha (List.not_mem_nil a)
  | cons b t ih =>
    simp only [List.map_cons, List.lookup]
    by_cases hab : a = b
    · subst hab
      simp
    · have hab' : (a == b) = false := beq_eq_false_iff_ne.mpr hab
      rw [hab']
      exact ih (List.mem_cons.mp ha |>.resolve_left hab)

/-- A rectangular row-major matrix built over explicit row and column
keys has a cell at every observed (row, column) pair. -/
theorem cellOf_map {α : Type} (rows : List Int) (cols : List String)
    (g : Int → String → α) (y : Int) (k : String)
    (hy : y ∈ rows) (hk : k ∈ cols) :
    cellOf (rows.map fun r => (r, cols.map fun c => (c, g r c))) y k =
      some (g y k) := by
  unfold cellOf
  rw [lookup_map_self _ _ y hy]
  show (cols.map fun c => (c, g y c)).lookup k = some (g y k)
  exact lookup_map_self _ _ k hk

/-- C6 counterexample: on the loaded `exRaw2` the (2000, "High")
combination has no records; the heatmap matrix still has that cell, but
it holds NaN (`none`), not the zero the claim asserts — `pivot_table`
with `aggfunc=np.mean` has no `fill_value`. -/
theorem heatmap_zero_fill_counterexample :
    cellRecords (load_data exRaw2) 2000 "High" = [] ∧
      cellOf (heatmap_data (load_data exRaw2)) 2000 "High" = some none ∧
      cellOf (heatmap_data (load_data exRaw2)) 2000 "High" ≠
        some (some 0) :=
  ⟨by decide, by decide, by decide⟩

/-- C6 amended: both Year × Risk Level matrices are rectangular — every
observed (row, column) key pair has a cell — and a combination with no
records yields a 0 cell in the count matrix (`fillna(0)`) but a NaN
(`none`) cell in the mean heatmap (no `fill_value`). -/
theorem pivot_rectangular (fdf : List Record) (y : Int) (k : String)
    (hy : y ∈ pivotRows fdf) (hk : k ∈ pivotCols fdf) :
    (cellOf (yearly_risk fdf) y k).isSome ∧
      (cellOf (heatmap_data fdf) y k).isSome ∧
      (cellRecords fdf y k = [] →
        cellOf (yearly_risk fdf) y k = some 0 ∧
          cellOf (heatmap_data fdf) y k = some none) := by
  have h1 : cellOf (yearly_risk fdf) y k =
      some ((sizeCell fdf y k).getD 0) := by
    unfold yearly_risk
    exact cellOf_map _ _ _ y k hy hk
  have h2 : cellOf (heatmap_data fdf) y k =
      some (colMean ((cellRecords fdf y k).map (·.value))) := by
    unfold heatmap_data
    exact cellOf_map _ _ _ y k hy hk
  refine ⟨by rw [h1]; rfl, by rw [h2]; rfl, fun hempty => ⟨?_, ?_⟩⟩
  · rw [h1]
    simp [sizeCell, hempty]
  · rw [h2, hempty]
    rfl

/-- Witness: the amended pivot theorem evaluated at the empty
(2000, "High") combination of the loaded `exRaw2`. -/
theorem pivot_rectangular_witness :
    cellOf (yearly_risk (load_data exRaw2)) 2000 "High" = some 0 ∧
      cellOf (heatmap_data (load_data exRaw2)) 2000 "High" = some none := by
  have h := pivot_rectangular (load_data exRaw2) 2000 "High"
    (by decide) (by decide)
  exact h.2.2 (by decide)

end InterestRates
